import Mathlib

/-!
Verification of the business-rule core of the e-sports tournament web
application (power-ranking-web-app): the data model (`src/website/models.py`),
the registration/approval/archival route handlers (`src/website/views.py`),
and the scheduled archival sweep (`src/website/archive_expired.py`).

The relational rows are embedded as Lean structures and the database as lists
of rows.  Each route handler's read-check-write sequence becomes a pure
function from the database state to either an error outcome or the new state.
Registration statuses are the literal strings used by the code
("pending", "approved", "rejected", "archived").  Timestamps are integers;
`now` (the code's `func.now()` / `datetime.now()`) is passed explicitly.
-/

namespace ESportsHub

/-- Row of the `Team` table (`models.py`, class `Team`).  `tid` is the primary
key `id`; `rank` is the nullable `rank` column. -/
structure Team where
  tid : Nat
  name : String
  captain_id : Nat
  points : Int
  wins : Int
  rank : Option Int
  game_name : String
deriving Repr, DecidableEq

/-- Row of the `Tournament` table (`models.py`, class `Tournament`).
`hide` is the hidden flag read and written throughout `views.py` and
`archive_expired.py` (the spec's hidden flag); the `models.py` snapshot in
this revision omits the column declaration, but every handler treats it as a
boolean attribute of the row, so it is part of the embedded state. -/
structure Tournament where
  tid : Nat
  name : String
  game_name : String
  location : String
  date : Int
  archived : Bool
  hide : Bool
deriving Repr, DecidableEq

/-- Row of the `TournamentRegistration` table (`models.py`,
class `TournamentRegistration`).  `status` defaults to "pending". -/
structure Registration where
  rid : Nat
  tournament_id : Nat
  team_id : Nat
  registration_date : Int
  status : String
deriving Repr, DecidableEq

/-- The relational store: the three tables the business rules touch. -/
structure DB where
  teams : List Team
  tournaments : List Tournament
  registrations : List Registration
deriving Repr, DecidableEq

/-- Error outcomes of the handlers, per the spec's error taxonomy (§7):
`NotFound` (no tournament at the venue), `GameMismatch`,
`AlreadyApprovedElsewhere`, `DuplicateRegistration`. -/
inductive RegError where
  | NotFound
  | GameMismatch
  | AlreadyApprovedElsewhere
  | DuplicateRegistration
deriving Repr, DecidableEq

/-- The spec's "open tournament" (glossary): not archived, not hidden, date in
the future.  The code's future test is `Tournament.date >= func.now()`
(`views.py` line 216). -/
def isOpen (now : Int) (t : Tournament) : Bool :=
  !t.archived && !t.hide && decide (now ≤ t.date)

/-- `views.py` lines 197-199: tournaments at the venue that are not archived
and not hidden (note: no date filter in the source query). -/
def tournamentsAtLocation (ts : List Tournament) (loc : String) : List Tournament :=
  ts.filter (fun t => t.location == loc && !t.archived && !t.hide)

/-- `ORDER BY date DESC ... first()`: the row with the latest date (first such
row on a tie). -/
def latestBy : List Tournament → Option Tournament
  | [] => none
  | t :: ts => some (ts.foldl (fun best u => if best.date < u.date then u else best) t)

/-- The venue lookup of `tournament_register` (`views.py` lines 197-199):
filter by location, `archived == False`, `hide == False`, order by date
descending, take the first row. -/
def lookupTournamentByLocation (ts : List Tournament) (loc : String) : Option Tournament :=
  latestBy (tournamentsAtLocation ts loc)

/-- `views.py` lines 211-217: the `active_approved_reg` query — does the team
hold an `approved` registration on some tournament that is not archived, not
hidden, and future-dated? -/
def hasActiveApprovedRegistration (now : Int) (db : DB) (teamId : Nat) : Bool :=
  db.registrations.any (fun r =>
    r.team_id == teamId && r.status == "approved" &&
    db.tournaments.any (fun t =>
      t.tid == r.tournament_id && !t.archived && !t.hide && decide (now ≤ t.date)))

/-- Autoincrement primary key for a fresh `TournamentRegistration` row. -/
def nextRegistrationId (regs : List Registration) : Nat :=
  (regs.map (fun r => r.rid)).foldl max 0 + 1

/-- `tournament_register` (`views.py` lines 182-244), the spec's
`RegisterTeamForTournament(team, location)`: look the tournament up by venue;
fail on game-name mismatch; fail if the team holds an approved registration on
an active tournament; fail if a row for this (team, tournament) pair exists;
otherwise insert a fresh row with default status "pending" and the current
timestamp. -/
def tournament_register (now : Int) (db : DB) (team : Team) (loc : String) :
    Except RegError DB :=
  match lookupTournamentByLocation db.tournaments loc with
  | none => .error .NotFound
  | some tournament =>
    if team.game_name != tournament.game_name then
      .error .GameMismatch
    else if hasActiveApprovedRegistration now db team.tid then
      .error .AlreadyApprovedElsewhere
    else if db.registrations.any (fun r =>
        r.tournament_id == tournament.tid && r.team_id == team.tid) then
      .error .DuplicateRegistration
    else
      .ok { db with registrations := db.registrations ++
        [{ rid := nextRegistrationId db.registrations
           tournament_id := tournament.tid
           team_id := team.tid
           registration_date := now
           status := "pending" }] }

/-- `approve_registration` (`views.py` lines 806-830): 404 when no row has the
id, otherwise set `status = 'approved'` unconditionally. -/
def approve_registration (db : DB) (regId : Nat) : Except RegError DB :=
  if db.registrations.any (fun r => r.rid == regId) then
    .ok { db with registrations := db.registrations.map (fun r =>
      if r.rid == regId then { r with status := "approved" } else r) }
  else
    .error .NotFound

/-- `reject_registration` (`views.py` lines 832-856): 404 when no row has the
id, otherwise set `status = 'rejected'` unconditionally. -/
def reject_registration (db : DB) (regId : Nat) : Except RegError DB :=
  if db.registrations.any (fun r => r.rid == regId) then
    .ok { db with registrations := db.registrations.map (fun r =>
      if r.rid == regId then { r with status := "rejected" } else r) }
  else
    .error .NotFound

/-- `tournament_archive` (`views.py` lines 752-782): 404 when no tournament has
the id, otherwise move every `approved` registration of the tournament to
`archived` and set the tournament's `archived` flag. -/
def tournament_archive (db : DB) (tournamentId : Nat) : Except RegError DB :=
  if db.tournaments.any (fun t => t.tid == tournamentId) then
    .ok { db with
      registrations := db.registrations.map (fun r =>
        if r.tournament_id == tournamentId && r.status == "approved" then
          { r with status := "archived" } else r)
      tournaments := db.tournaments.map (fun t =>
        if t.tid == tournamentId then { t with archived := true } else t) }
  else
    .error .NotFound

/-- The sweep's expiry test (`archive_expired.py` line 21-24):
`Tournament.date < func.now()` and not already archived. -/
def isExpired (now : Int) (t : Tournament) : Bool :=
  decide (t.date < now) && !t.archived

/-- One iteration of the sweep loop (`archive_expired.py` lines 27-35): set
`archived = True` and `hide = True` on the tournament and move its `approved`
registrations to `archived`. -/
def archiveOneExpired (db : DB) (tournamentId : Nat) : DB :=
  { db with
    tournaments := db.tournaments.map (fun t =>
      if t.tid == tournamentId then { t with archived := true, hide := true } else t)
    registrations := db.registrations.map (fun r =>
      if r.tournament_id == tournamentId && r.status == "approved" then
        { r with status := "archived" } else r) }

/-- `archive_expired_tournaments` (`website/archive_expired.py` lines 19-51):
select the expired tournaments once, then process each in turn; the single
`db.session.commit()` after the loop makes this the committed result of a
clean run. -/
def archive_expired_tournaments (now : Int) (db : DB) : DB :=
  ((db.tournaments.filter (isExpired now)).map (fun t => t.tid)).foldl archiveOneExpired db

/-- Number of loop iterations in one sweep: one per expired tournament. -/
def sweepStepCount (now : Int) (db : DB) : Nat :=
  (db.tournaments.filter (isExpired now)).length

/-- One scheduled tick of the archival job (`archive_expired.py` lines 19-58).
The whole body runs inside `try ... except`, with the single
`db.session.commit()` after the loop; `except` logs the error and calls
`db.session.rollback()`.  `faultAt = some k` models an exception raised after
`k` loop iterations, before the commit completed (`k ≤ sweepStepCount + 1`
covers a fault at the commit call itself): the transaction is rolled back, so
the committed state is the original one, and the error is logged (the returned
flag).  `faultAt = none`, or a fault index beyond the transaction, is a clean
run: the pending changes are committed. -/
def sweep_tick (now : Int) (db : DB) (faultAt : Option Nat) : DB × Bool :=
  match faultAt with
  | some k =>
    if k ≤ sweepStepCount now db + 1 then (db, true)
    else (archive_expired_tournaments now db, false)
  | none => (archive_expired_tournaments now db, false)

/-- `views.py` lines 122-124: the global ranking scope — teams holding at
least one `approved` registration. -/
def rankedTeamsGlobal (db : DB) : List Team :=
  db.teams.filter (fun tm => db.registrations.any (fun r =>
    r.team_id == tm.tid && r.status == "approved"))

/-- `views.py` lines 116-119: the filtered ranking scope — teams holding an
`approved` registration on a tournament whose name matches the category
filter (the `ilike` match is abstracted as a predicate on the tournament). -/
def rankedTeamsByTournament (db : DB) (nameMatch : Tournament → Bool) : List Team :=
  db.teams.filter (fun tm => db.registrations.any (fun r =>
    r.team_id == tm.tid && r.status == "approved" &&
    db.tournaments.any (fun t => t.tid == r.tournament_id && nameMatch t)))

/-- `ORDER BY points DESC, wins DESC` as a boolean order on team rows:
`a` comes no later than `b`. -/
def teamRankLE (a b : Team) : Bool :=
  decide (b.points < a.points) || (decide (a.points = b.points) && decide (b.wins ≤ a.wins))

/-- The ranking sort of `views.py` lines 116-124: points descending, wins
descending as the tie-break (`ORDER BY points DESC, wins DESC`). -/
def rankByPointsWins (ts : List Team) : List Team :=
  List.insertionSort (fun a b => teamRankLE a b = true) ts

/-- `for i, team in enumerate(ranked_teams, 1): team.rank = i`
(`views.py` lines 126-127). -/
def assignRanksFrom : Nat → List Team → List Team
  | _, [] => []
  | i, tm :: rest => { tm with rank := some (Int.ofNat i) } :: assignRanksFrom (i + 1) rest

/-- Rank assignment starting from position 1. -/
def assignRanks (ts : List Team) : List Team :=
  assignRanksFrom 1 ts

/-- The ranking block of the `home` view (`views.py` lines 113-128), the
spec's `compute_rankings(scope)`: sort the scoped team set by
(points descending, wins descending), assign `rank = 1-based position`, and
persist the new rank of every scoped team back into the team table
(`db.session.commit()`).  `selected` is the scoped team set produced by
`rankedTeamsGlobal` or `rankedTeamsByTournament`. -/
def home_compute_rankings (db : DB) (selected : List Team) : DB :=
  { db with teams := db.teams.map (fun tm =>
      ((assignRanks (rankByPointsWins selected)).find?
        (fun x => x.tid == tm.tid)).getD tm) }

/-- The count of `approved` registrations a team holds on open (not archived,
not hidden, future-dated) tournaments. -/
def approvedOpenCount (now : Int) (db : DB) (teamId : Nat) : Nat :=
  db.registrations.countP (fun r =>
    r.team_id == teamId && r.status == "approved" &&
    db.tournaments.any (fun t =>
      t.tid == r.tournament_id && !t.archived && !t.hide && decide (now ≤ t.date)))

/-- The spec's claimed invariant (§3): every team holds at most one
`approved` registration across all open tournaments. -/
def UniqueApprovedInvariant (now : Int) (db : DB) : Prop :=
  ∀ teamId, approvedOpenCount now db teamId ≤ 1

/-- Ids of the tournaments the sweep selects for archival. -/
def expiredIds (now : Int) (db : DB) : List Nat :=
  (db.tournaments.filter (isExpired now)).map (fun t => t.tid)

/-- Mark a tournament archived-and-hidden when its id is in the expired set. -/
def markExpiredIn (ids : List Nat) (t : Tournament) : Tournament :=
  if ids.contains t.tid then { t with archived := true, hide := true } else t

/-- Move an `approved` registration of an expired tournament to `archived`. -/
def archiveApprovedIn (ids : List Nat) (r : Registration) : Registration :=
  if ids.contains r.tournament_id && r.status == "approved" then
    { r with status := "archived" } else r

deriving instance DecidableEq for Except

/- Concrete states used to exercise the theorems. -/

def exC1Team : Team := ⟨1, "Alpha", 7, 0, 0, none, "VALORANT"⟩
def exC1G1 : Tournament := ⟨1, "Spring Cup", "VALORANT", "point-a", 10, false, false⟩
def exC1G2 : Tournament := ⟨2, "Summer Cup", "VALORANT", "point-b", 20, false, false⟩
def exC1Db0 : DB := ⟨[exC1Team], [exC1G1, exC1G2], []⟩
def exC1Db1 : DB := ⟨[exC1Team], [exC1G1, exC1G2], [⟨1, 1, 1, 0, "pending"⟩]⟩
def exC1Db2 : DB :=
  ⟨[exC1Team], [exC1G1, exC1G2], [⟨1, 1, 1, 0, "pending"⟩, ⟨2, 2, 1, 0, "pending"⟩]⟩
def exC1Db3 : DB :=
  ⟨[exC1Team], [exC1G1, exC1G2], [⟨1, 1, 1, 0, "approved"⟩, ⟨2, 2, 1, 0, "pending"⟩]⟩
def exC1Db4 : DB :=
  ⟨[exC1Team], [exC1G1, exC1G2], [⟨1, 1, 1, 0, "approved"⟩, ⟨2, 2, 1, 0, "approved"⟩]⟩

def exC2Team : Team := ⟨1, "Alpha", 7, 0, 0, none, "VALORANT"⟩
def exC2G : Tournament := ⟨1, "Past Cup", "VALORANT", "point-a", -5, false, false⟩
def exC2Db : DB := ⟨[exC2Team], [exC2G], []⟩
def exC2EmptyDb : DB := ⟨[], [], []⟩

def exC3Team : Team := ⟨1, "Bravo", 7, 0, 0, none, "CS2"⟩
def exC3G1 : Tournament := ⟨1, "CS Open", "CS2", "point-a", 10, false, false⟩
def exC3G2 : Tournament := ⟨2, "Valo Open", "VALORANT", "point-b", 20, false, false⟩
def exC3Db : DB := ⟨[exC3Team], [exC3G1, exC3G2], [⟨1, 1, 1, 0, "approved"⟩]⟩
def exC3WG2 : Tournament := ⟨2, "CS Open B", "CS2", "point-b", 20, false, false⟩
def exC3WDb : DB := ⟨[exC3Team], [exC3G1, exC3WG2], [⟨1, 1, 1, 0, "approved"⟩]⟩

def exC4Team : Team := ⟨1, "Alpha", 7, 0, 0, none, "VALORANT"⟩
def exC4G : Tournament := ⟨1, "Cup", "VALORANT", "point-a", 10, false, false⟩
def exC4Db : DB := ⟨[exC4Team], [exC4G], [⟨1, 1, 1, 0, "approved"⟩]⟩
def exC4WDbDup : DB := ⟨[exC4Team], [exC4G], [⟨1, 1, 1, 0, "rejected"⟩]⟩
def exC4WDbNew : DB := ⟨[exC4Team], [exC4G], []⟩

def exC5Team : Team := ⟨1, "Bravo", 7, 0, 0, none, "CS2"⟩
def exC5G : Tournament := ⟨1, "Cup", "VALORANT", "point-a", 10, false, false⟩
def exC5Db : DB := ⟨[exC5Team], [exC5G], []⟩

def exC6TeamA : Team := ⟨1, "A", 7, 10, 2, none, "VALORANT"⟩
def exC6TeamB : Team := ⟨2, "B", 8, 10, 5, none, "VALORANT"⟩
def exC6TeamC : Team := ⟨3, "C", 9, 7, 9, none, "OTHER"⟩
def exC6Db : DB := ⟨[exC6TeamA, exC6TeamB, exC6TeamC], [], []⟩
def exC6Scope : Team → Bool := fun tm => tm.game_name == "VALORANT"

def exC7G1 : Tournament := ⟨1, "Yesterday Cup", "VALORANT", "point-a", -1, false, false⟩
def exC7G2 : Tournament := ⟨2, "Tomorrow Cup", "VALORANT", "point-b", 1, false, false⟩
def exC7Reg : Registration := ⟨1, 1, 1, -2, "approved"⟩
def exC7Db : DB := ⟨[], [exC7G1, exC7G2], [exC7Reg]⟩

def exC8G : Tournament := ⟨1, "Cup", "VALORANT", "point-a", 10, false, false⟩
def exC8Db : DB :=
  ⟨[], [exC8G], [⟨1, 1, 1, 0, "approved"⟩, ⟨2, 1, 2, 0, "pending"⟩, ⟨3, 1, 3, 0, "rejected"⟩]⟩
def exC8Db1 : DB :=
  ⟨[], [⟨1, "Cup", "VALORANT", "point-a", 10, true, false⟩],
   [⟨1, 1, 1, 0, "archived"⟩, ⟨2, 1, 2, 0, "pending"⟩, ⟨3, 1, 3, 0, "rejected"⟩]⟩

def exC9G1 : Tournament := ⟨1, "Yesterday Cup", "VALORANT", "point-a", -1, false, false⟩
def exC9Db : DB := ⟨[], [exC9G1], [⟨1, 1, 1, -2, "approved"⟩]⟩

def exC10Db : DB := ⟨[], [], [⟨1, 1, 1, 0, "rejected"⟩]⟩

/-! Helper lemmas about the venue lookup. -/

theorem foldl_latest_mem (ts : List Tournament) (a : Tournament) :
    ts.foldl (fun best u => if best.date < u.date then u else best) a = a ∨
    ts.foldl (fun best u => if best.date < u.date then u else best) a ∈ ts := by
  induction ts generalizing a with
  | nil => exact Or.inl rfl
  | cons u ts ih =>
    simp only [List.foldl_cons]
    rcases ih (if a.date < u.date then u else a) with h | h
    · rw [h]
      by_cases hc : a.date < u.date
      · rw [if_pos hc]
        exact Or.inr (List.mem_cons_self u ts)
      · rw [if_neg hc]
        exact Or.inl rfl
    · exact Or.inr (List.mem_cons_of_mem u h)

theorem foldl_latest_le (ts : List Tournament) (a : Tournament) :
    a.date ≤ (ts.foldl (fun best u => if best.date < u.date then u else best) a).date ∧
    ∀ u ∈ ts, u.date ≤ (ts.foldl (fun best u => if best.date < u.date then u else best) a).date := by
  induction ts generalizing a with
  | nil => simp
  | cons u ts ih =>
    simp only [List.foldl_cons]
    obtain ⟨h1, h2⟩ := ih (if a.date < u.date then u else a)
    have hau : a.date ≤ (if a.date < u.date then u else a).date := by
      by_cases hc : a.date < u.date
      · rw [if_pos hc]; omega
      · rw [if_neg hc]
    have huu : u.date ≤ (if a.date < u.date then u else a).date := by
      by_cases hc : a.date < u.date
      · rw [if_pos hc]
      · rw [if_neg hc]; omega
    refine ⟨le_trans hau h1, ?_⟩
    intro v hv
    rcases List.mem_cons.mp hv with rfl | hv
    · exact le_trans huu h1
    · exact h2 v hv

theorem latestBy_eq_none_iff (l : List Tournament) : latestBy l = none ↔ l = [] := by
  cases l <;> simp [latestBy]

theorem latestBy_spec {l : List Tournament} {t : Tournament} (h : latestBy l = some t) :
    t ∈ l ∧ ∀ u ∈ l, u.date ≤ t.date := by
  cases l with
  | nil => cases h
  | cons a ts =>
    simp only [latestBy, Option.some.injEq] at h
    subst h
    refine ⟨?_, ?_⟩
    · rcases foldl_latest_mem ts a with h | h
      · rw [h]; exact List.mem_cons_self a ts
      · exact List.mem_cons_of_mem a h
    · intro u hu
      obtain ⟨h1, h2⟩ := foldl_latest_le ts a
      rcases List.mem_cons.mp hu with rfl | hu
      · exact h1
      · exact h2 u hu

/-! Helper lemmas for counting approved registrations under row updates. -/

theorem countP_map_le {α : Type} (l : List α) (f : α → α) (p q : α → Bool)
    (h : ∀ r ∈ l, p (f r) = true → q r = true) :
    (l.map f).countP p ≤ l.countP q := by
  rw [List.countP_map]
  exact List.countP_mono_left h

/-! The sweep loop processed as a whole: characterization of
`archive_expired_tournaments`. -/

theorem markExpiredIn_cons (i : Nat) (ids : List Nat) (t : Tournament) :
    markExpiredIn ids (if t.tid == i then { t with archived := true, hide := true } else t) =
    markExpiredIn (i :: ids) t := by
  by_cases h : t.tid = i
  · simp [h, markExpiredIn, List.contains_cons]
  · simp [h, markExpiredIn, List.contains_cons]

theorem archiveApprovedIn_cons (i : Nat) (ids : List Nat) (r : Registration) :
    archiveApprovedIn ids
      (if r.tournament_id == i && r.status == "approved" then
        { r with status := "archived" } else r) =
    archiveApprovedIn (i :: ids) r := by
  by_cases h1 : r.tournament_id = i
  · by_cases h2 : r.status = "approved"
    · simp [h1, h2, archiveApprovedIn, List.contains_cons]
    · have hb : (r.status == "approved") = false := by simp [h2]
      simp [h1, hb, archiveApprovedIn, List.contains_cons]
  · simp [h1, archiveApprovedIn, List.contains_cons]

theorem foldl_archiveOneExpired (ids : List Nat) (db : DB) :
    ids.foldl archiveOneExpired db =
      { db with
        tournaments := db.tournaments.map (markExpiredIn ids)
        registrations := db.registrations.map (archiveApprovedIn ids) } := by
  induction ids generalizing db with
  | nil =>
    have ht : markExpiredIn [] = fun t => t := funext fun t => by simp [markExpiredIn]
    have hr : archiveApprovedIn [] = fun r => r := funext fun r => by simp [archiveApprovedIn]
    rw [List.foldl_nil, ht, hr, List.map_id', List.map_id']
  | cons i ids ih =>
    simp only [List.foldl_cons]
    rw [ih]
    simp only [archiveOneExpired, List.map_map]
    have ht : markExpiredIn ids ∘
        (fun t => if t.tid == i then { t with archived := true, hide := true } else t) =
        markExpiredIn (i :: ids) :=
      funext fun t => markExpiredIn_cons i ids t
    have hr : archiveApprovedIn ids ∘
        (fun r => if r.tournament_id == i && r.status == "approved" then
          { r with status := "archived" } else r) =
        archiveApprovedIn (i :: ids) :=
      funext fun r => archiveApprovedIn_cons i ids r
    rw [ht, hr]

theorem archive_expired_eq (now : Int) (db : DB) :
    archive_expired_tournaments now db =
      { db with
        tournaments := db.tournaments.map (markExpiredIn (expiredIds now db))
        registrations := db.registrations.map (archiveApprovedIn (expiredIds now db)) } := by
  unfold archive_expired_tournaments expiredIds
  exact foldl_archiveOneExpired _ db

/-! Shapes of the successful outcomes of each handler. -/

theorem tournament_register_ok {now : Int} {db : DB} {team : Team} {loc : String} {db' : DB}
    (h : tournament_register now db team loc = .ok db') :
    ∃ g, lookupTournamentByLocation db.tournaments loc = some g ∧
      db' = { db with registrations := db.registrations ++
        [{ rid := nextRegistrationId db.registrations
           tournament_id := g.tid
           team_id := team.tid
           registration_date := now
           status := "pending" }] } := by
  unfold tournament_register at h
  cases hl : lookupTournamentByLocation db.tournaments loc with
  | none => rw [hl] at h; cases h
  | some g =>
    rw [hl] at h
    dsimp only at h
    refine ⟨g, rfl, ?_⟩
    by_cases h1 : (team.game_name != g.game_name) = true
    · rw [if_pos h1] at h; cases h
    · rw [if_neg h1] at h
      by_cases h2 : hasActiveApprovedRegistration now db team.tid = true
      · rw [if_pos h2] at h; cases h
      · rw [if_neg h2] at h
        by_cases h3 : (db.registrations.any fun r =>
            r.tournament_id == g.tid && r.team_id == team.tid) = true
        · rw [if_pos h3] at h; cases h
        · rw [if_neg h3] at h
          cases h; rfl

theorem approve_registration_ok {db : DB} {regId : Nat} {db' : DB}
    (h : approve_registration db regId = .ok db') :
    db' = { db with registrations := db.registrations.map (fun r =>
      if r.rid == regId then { r with status := "approved" } else r) } ∧
    db.registrations.any (fun r => r.rid == regId) = true := by
  unfold approve_registration at h
  split at h
  · cases h; exact ⟨rfl, by assumption⟩
  · cases h

theorem reject_registration_ok {db : DB} {regId : Nat} {db' : DB}
    (h : reject_registration db regId = .ok db') :
    db' = { db with registrations := db.registrations.map (fun r =>
      if r.rid == regId then { r with status := "rejected" } else r) } ∧
    db.registrations.any (fun r => r.rid == regId) = true := by
  unfold reject_registration at h
  split at h
  · cases h; exact ⟨rfl, by assumption⟩
  · cases h

theorem tournament_archive_ok {db : DB} {tournamentId : Nat} {db' : DB}
    (h : tournament_archive db tournamentId = .ok db') :
    db' = { db with
      registrations := db.registrations.map (fun r =>
        if r.tournament_id == tournamentId && r.status == "approved" then
          { r with status := "archived" } else r)
      tournaments := db.tournaments.map (fun t =>
        if t.tid == tournamentId then { t with archived := true } else t) } ∧
    db.tournaments.any (fun t => t.tid == tournamentId) = true := by
  unfold tournament_archive at h
  split at h
  · cases h; exact ⟨rfl, by assumption⟩
  · cases h

/-! Preservation of the at-most-one-approved property by the individual
operations. -/

theorem register_preserves_invariant {now : Int} {db : DB} {team : Team} {loc : String}
    {db' : DB} (hin : UniqueApprovedInvariant now db)
    (h : tournament_register now db team loc = .ok db') :
    UniqueApprovedInvariant now db' := by
  obtain ⟨g, -, rfl⟩ := tournament_register_ok h
  intro teamId
  have hle := hin teamId
  unfold approvedOpenCount at hle ⊢
  dsimp only
  rw [List.countP_append, List.countP_cons_of_neg _ _ (by simp), List.countP_nil,
    Nat.add_zero]
  exact hle

theorem reject_preserves_invariant {now : Int} {db : DB} {regId : Nat} {db' : DB}
    (hin : UniqueApprovedInvariant now db)
    (h : reject_registration db regId = .ok db') :
    UniqueApprovedInvariant now db' := by
  obtain ⟨rfl, -⟩ := reject_registration_ok h
  intro teamId
  refine le_trans ?_ (hin teamId)
  unfold approvedOpenCount
  dsimp only
  apply countP_map_le
  intro r _ hp
  by_cases hc : r.rid = regId
  · exfalso
    have hrj : (("rejected" : String) == "approved") = false := by decide
    simp [hc, hrj] at hp
  · simpa [hc] using hp

theorem archive_preserves_invariant {now : Int} {db : DB} {tournamentId : Nat} {db' : DB}
    (hin : UniqueApprovedInvariant now db)
    (h : tournament_archive db tournamentId = .ok db') :
    UniqueApprovedInvariant now db' := by
  obtain ⟨rfl, -⟩ := tournament_archive_ok h
  intro teamId
  refine le_trans ?_ (hin teamId)
  unfold approvedOpenCount
  dsimp only
  apply countP_map_le
  intro r _ hp
  by_cases hc1 : r.tournament_id = tournamentId
  · by_cases hc2 : r.status = "approved"
    · exfalso
      have har : (("archived" : String) == "approved") = false := by decide
      simp [hc1, hc2, har] at hp
    · exfalso
      have hb : (r.status == "approved") = false := by simp [hc2]
      simp [hb] at hp
  · have hb : (r.tournament_id == tournamentId) = false := by simp [hc1]
    simp only [hb, Bool.false_and, Bool.false_eq_true, if_false] at hp
    rw [List.any_map] at hp
    simp only [Bool.and_eq_true] at hp ⊢
    obtain ⟨h1, h2⟩ := hp
    refine ⟨h1, ?_⟩
    rw [List.any_eq_true] at h2 ⊢
    obtain ⟨t, ht, hq⟩ := h2
    refine ⟨t, ht, ?_⟩
    by_cases hc3 : t.tid = tournamentId
    · exfalso
      simp [Function.comp, hc3] at hq
    · simpa [Function.comp, hc3] using hq

theorem sweep_preserves_invariant {now : Int} {db : DB}
    (hin : UniqueApprovedInvariant now db) :
    UniqueApprovedInvariant now (archive_expired_tournaments now db) := by
  rw [archive_expired_eq]
  intro teamId
  refine le_trans ?_ (hin teamId)
  unfold approvedOpenCount
  dsimp only
  apply countP_map_le
  intro r _ hp
  by_cases hc1 : r.tournament_id ∈ expiredIds now db
  · by_cases hc2 : r.status = "approved"
    · exfalso
      have har : (("archived" : String) == "approved") = false := by decide
      simp [archiveApprovedIn, hc1, hc2, har] at hp
    · exfalso
      simp [archiveApprovedIn, hc2] at hp
  · simp only [archiveApprovedIn] at hp
    rw [if_neg (by simp [hc1])] at hp
    simp only [Bool.and_eq_true] at hp ⊢
    obtain ⟨h1, h2⟩ := hp
    refine ⟨h1, ?_⟩
    rw [List.any_map, List.any_eq_true] at h2
    rw [List.any_eq_true]
    obtain ⟨t, ht, hq⟩ := h2
    refine ⟨t, ht, ?_⟩
    by_cases hc3 : t.tid ∈ expiredIds now db
    · exfalso
      simp [Function.comp, markExpiredIn, hc3] at hq
    · simpa [Function.comp, markExpiredIn, hc3] using hq

/-! Helper lemmas for the ranking computation. -/

theorem teamRankLE_trans (a b c : Team) (hab : teamRankLE a b = true)
    (hbc : teamRankLE b c = true) : teamRankLE a c = true := by
  simp only [teamRankLE, Bool.or_eq_true, Bool.and_eq_true, decide_eq_true_eq] at hab hbc ⊢
  omega

theorem teamRankLE_total (a b : Team) : (teamRankLE a b || teamRankLE b a) = true := by
  simp only [teamRankLE, Bool.or_eq_true, Bool.and_eq_true, decide_eq_true_eq]
  omega

theorem rankByPointsWins_perm (ts : List Team) : (rankByPointsWins ts).Perm ts :=
  List.perm_insertionSort (fun a b => teamRankLE a b = true) ts

theorem rankByPointsWins_sorted (ts : List Team) :
    (rankByPointsWins ts).Pairwise (fun a b => teamRankLE a b = true) :=
  @List.sorted_insertionSort Team (fun a b => teamRankLE a b = true) _
    ⟨fun a b => by
      rcases Bool.or_eq_true_iff.mp (teamRankLE_total a b) with h | h
      · exact Or.inl h
      · exact Or.inr h⟩
    ⟨fun a b c => teamRankLE_trans a b c⟩ ts

theorem assignRanksFrom_length (i : Nat) (ts : List Team) :
    (assignRanksFrom i ts).length = ts.length := by
  induction ts generalizing i with
  | nil => rfl
  | cons tm rest ih => simp [assignRanksFrom, ih]

theorem assignRanksFrom_get (i : Nat) (ts : List Team) (j : Nat) (h : j < ts.length)
    (h2 : j < (assignRanksFrom i ts).length) :
    (assignRanksFrom i ts).get ⟨j, h2⟩ =
      { ts.get ⟨j, h⟩ with rank := some (Int.ofNat (i + j)) } := by
  induction ts generalizing i j with
  | nil => cases h
  | cons tm rest ih =>
    cases j with
    | zero => rfl
    | succ j =>
      have hrest : j < rest.length := Nat.lt_of_succ_lt_succ h
      have hrest2 : j < (assignRanksFrom (i + 1) rest).length := by
        rw [assignRanksFrom_length]; exact hrest
      have := ih (i + 1) j hrest hrest2
      simp only [assignRanksFrom, List.get_cons_succ]
      rw [this]
      have : i + 1 + j = i + (j + 1) := by omega
      rw [this]

theorem assignRanksFrom_map_tid (i : Nat) (ts : List Team) :
    (assignRanksFrom i ts).map (fun tm => tm.tid) = ts.map (fun tm => tm.tid) := by
  induction ts generalizing i with
  | nil => rfl
  | cons tm rest ih => simp [assignRanksFrom, ih]

theorem find?_tid_unique {l : List Team} (hnd : (l.map (fun tm => tm.tid)).Nodup)
    {x : Team} (hx : x ∈ l) :
    l.find? (fun y => y.tid == x.tid) = some x := by
  induction l with
  | nil => cases hx
  | cons a l ih =>
    rw [List.map_cons, List.nodup_cons] at hnd
    rcases List.mem_cons.mp hx with rfl | hx2
    · simp [List.find?_cons]
    · have hne : (a.tid == x.tid) = false := by
        have : a.tid ≠ x.tid := fun he => hnd.1 (he ▸ List.mem_map_of_mem _ hx2)
        simp [this]
      rw [List.find?_cons, hne]
      exact ih hnd.2 hx2

/-- When the venue lookup succeeds, no branch of `tournament_register`
returns `NotFound`. -/
theorem tournament_register_ne_notfound {now : Int} {db : DB} {team : Team} {loc : String}
    {g : Tournament} (hsel : lookupTournamentByLocation db.tournaments loc = some g) :
    tournament_register now db team loc ≠ .error .NotFound := by
  unfold tournament_register
  rw [hsel]
  dsimp only
  by_cases h1 : (team.game_name != g.game_name) = true
  · rw [if_pos h1]; simp
  · rw [if_neg h1]
    by_cases h2 : hasActiveApprovedRegistration now db team.tid = true
    · rw [if_pos h2]; simp
    · rw [if_neg h2]
      by_cases h3 : (db.registrations.any fun r =>
          r.tournament_id == g.tid && r.team_id == team.tid) = true
      · rw [if_pos h3]; simp
      · rw [if_neg h3]; simp

/-- C2 (corrected): `RegisterTeamForTournament` fails with `NotFound` exactly
when no tournament at the given venue is both unarchived and unhidden — the
source query applies no date filter, so past-dated tournaments still satisfy
the lookup; and when several tournaments match, the selected one is the most
recent by date. -/
theorem register_notfound_characterization (now : Int) (db : DB) (team : Team)
    (loc : String) :
    ((tournament_register now db team loc = .error .NotFound) ↔
      tournamentsAtLocation db.tournaments loc = []) ∧
    (∀ g, lookupTournamentByLocation db.tournaments loc = some g →
      g ∈ db.tournaments ∧ g.location = loc ∧ g.archived = false ∧ g.hide = false ∧
      ∀ u ∈ db.tournaments, u.location = loc → u.archived = false → u.hide = false →
        u.date ≤ g.date) := by
  constructor
  · constructor
    · intro h
      cases hl : lookupTournamentByLocation db.tournaments loc with
      | none =>
        unfold lookupTournamentByLocation at hl
        exact (latestBy_eq_none_iff _).mp hl
      | some g => exact absurd h (tournament_register_ne_notfound hl)
    · intro h
      unfold tournament_register lookupTournamentByLocation
      rw [h]
      rfl
  · intro g hg
    unfold lookupTournamentByLocation at hg
    obtain ⟨hm, hle⟩ := latestBy_spec hg
    unfold tournamentsAtLocation at hm hle
    rw [List.mem_filter] at hm
    obtain ⟨hmem, hcond⟩ := hm
    simp only [Bool.and_eq_true, beq_iff_eq, Bool.not_eq_eq_eq_not, Bool.not_true] at hcond
    refine ⟨hmem, hcond.1.1, hcond.1.2, hcond.2, ?_⟩
    intro u hu h1 h2 h3
    apply hle
    rw [List.mem_filter]
    exact ⟨hu, by simp [h1, h2, h3]⟩

/-- C2 witness: on a state with no tournament at the venue, the corrected
characterization yields the `NotFound` outcome. -/
theorem register_notfound_characterization_witness :
    tournament_register 0 exC2EmptyDb exC2Team "point-a" = .error .NotFound :=
  (register_notfound_characterization 0 exC2EmptyDb exC2Team "point-a").1.mpr (by decide)

/-- C2 counterexample: a past-dated, unarchived, unhidden tournament at the
venue. The spec's biconditional — `NotFound` iff no open (future-dated)
tournament at the venue — fails: no open tournament exists, yet registration
does not return `NotFound` (it succeeds). -/
theorem register_notfound_spec_counterexample :
    ¬ ((tournament_register 0 exC2Db exC2Team "point-a" = .error .NotFound) ↔
       ∀ t ∈ exC2Db.tournaments, ¬(t.location = "point-a" ∧ t.archived = false ∧
         t.hide = false ∧ (0 : Int) ≤ t.date)) := by decide

/-- C5 (confirmed): whenever the venue lookup selects tournament `g` and the
team's game category differs from `g`'s, registration fails with
`GameMismatch`, regardless of any other state. -/
theorem register_game_mismatch {now : Int} {db : DB} {team : Team} {loc : String}
    {g : Tournament} (hsel : lookupTournamentByLocation db.tournaments loc = some g)
    (hne : team.game_name ≠ g.game_name) :
    tournament_register now db team loc = .error .GameMismatch := by
  unfold tournament_register
  rw [hsel]
  dsimp only
  rw [if_pos (by simpa using hne)]

/-- C5 witness: a CS2 team registering at a VALORANT tournament's venue. -/
theorem register_game_mismatch_witness :
    tournament_register 0 exC5Db exC5Team "point-a" = .error .GameMismatch :=
  @register_game_mismatch 0 exC5Db exC5Team "point-a" exC5G (by decide) (by decide)

/-- C3 counterexample: team `exC3Team` holds an `approved` registration on the
open tournament `exC3G1`, and `exC3G2` is another open tournament, yet
registering for `exC3G2`'s venue does not fail with
`AlreadyApprovedElsewhere` — the game-category check runs first and returns
`GameMismatch`. -/
theorem register_already_approved_counterexample :
    isOpen 0 exC3G1 = true ∧ isOpen 0 exC3G2 = true ∧ exC3G1 ≠ exC3G2 ∧
    exC3G1 ∈ exC3Db.tournaments ∧ exC3G2 ∈ exC3Db.tournaments ∧
    lookupTournamentByLocation exC3Db.tournaments "point-b" = some exC3G2 ∧
    (⟨1, 1, 1, 0, "approved"⟩ : Registration) ∈ exC3Db.registrations ∧
    tournament_register 0 exC3Db exC3Team "point-b" ≠ .error .AlreadyApprovedElsewhere ∧
    tournament_register 0 exC3Db exC3Team "point-b" = .error .GameMismatch := by decide

/-- C3 (corrected): if the team holds an `approved` registration on some open
tournament, then registering for the tournament selected at any venue fails
with `AlreadyApprovedElsewhere`, provided the team's game category matches the
selected tournament's (otherwise `GameMismatch` takes priority). -/
theorem register_already_approved {now : Int} {db : DB} {team : Team} {loc : String}
    {g2 : Tournament}
    (hsel : lookupTournamentByLocation db.tournaments loc = some g2)
    (hgame : team.game_name = g2.game_name)
    (happr : ∃ r ∈ db.registrations, r.team_id = team.tid ∧ r.status = "approved" ∧
      ∃ g1 ∈ db.tournaments, g1.tid = r.tournament_id ∧ isOpen now g1 = true) :
    tournament_register now db team loc = .error .AlreadyApprovedElsewhere := by
  unfold tournament_register
  rw [hsel]
  dsimp only
  rw [if_neg (by simp [hgame])]
  have hact : hasActiveApprovedRegistration now db team.tid = true := by
    unfold hasActiveApprovedRegistration
    rw [List.any_eq_true]
    obtain ⟨r, hr, h1, h2, g1, hg1, h3, h4⟩ := happr
    refine ⟨r, hr, ?_⟩
    simp only [isOpen, Bool.and_eq_true] at h4
    obtain ⟨⟨ha, hh⟩, hd⟩ := h4
    simp only [Bool.and_eq_true, beq_iff_eq]
    refine ⟨⟨h1, h2⟩, ?_⟩
    rw [List.any_eq_true]
    exact ⟨g1, hg1, by simp [h3, ha, hh, hd]⟩
  rw [if_pos hact]

/-- C3 witness: with matching game categories, the approved-elsewhere check
does fire. -/
theorem register_already_approved_witness :
    tournament_register 0 exC3WDb exC3Team "point-b" = .error .AlreadyApprovedElsewhere :=
  @register_already_approved 0 exC3WDb exC3Team "point-b" exC3WG2
    (by decide) (by decide) (by decide)

/-- C4 counterexample: a registration row for the exact (team, tournament)
pair exists with status `approved` on a future-dated tournament; the spec says
this must fail with `DuplicateRegistration` regardless of the row's status,
but the approved-elsewhere check runs first and wins. -/
theorem register_duplicate_counterexample :
    (∃ r ∈ exC4Db.registrations, r.tournament_id = exC4G.tid ∧ r.team_id = exC4Team.tid) ∧
    lookupTournamentByLocation exC4Db.tournaments "point-a" = some exC4G ∧
    exC4Team.game_name = exC4G.game_name ∧
    tournament_register 0 exC4Db exC4Team "point-a" ≠ .error .DuplicateRegistration ∧
    tournament_register 0 exC4Db exC4Team "point-a" = .error .AlreadyApprovedElsewhere := by
  decide

/-- C4 (corrected): provided the earlier checks pass (a tournament is selected
at the venue, the game categories match, and the team holds no approved
registration on any active tournament — which excludes the case of an
`approved` row for this very pair on a future-dated tournament), registration
fails with `DuplicateRegistration` exactly when a row for the

(team, tournament) pair exists, and otherwise succeeds by inserting a single
fresh row with status `pending` and the current timestamp. -/
theorem register_duplicate_or_create {now : Int} {db : DB} {team : Team} {loc : String}
    {g : Tournament}
    (hsel : lookupTournamentByLocation db.tournaments loc = some g)
    (hgame : team.game_name = g.game_name)
    (hnoact : hasActiveApprovedRegistration now db team.tid = false) :
    ((∃ r ∈ db.registrations, r.tournament_id = g.tid ∧ r.team_id = team.tid) →
      tournament_register now db team loc = .error .DuplicateRegistration) ∧
    ((∀ r ∈ db.registrations, ¬(r.tournament_id = g.tid ∧ r.team_id = team.tid)) →
      tournament_register now db team loc = .ok { db with registrations :=
        db.registrations ++
          [{ rid := nextRegistrationId db.registrations
             tournament_id := g.tid
             team_id := team.tid
             registration_date := now
             status := "pending" }] }) := by
  unfold tournament_register
  rw [hsel]
  dsimp only
  rw [if_neg (by simp [hgame]), if_neg (by simp [hnoact])]
  constructor
  · intro hdup
    obtain ⟨r, hr, h1, h2⟩ := hdup
    rw [if_pos ?hc]
    case hc =>
      rw [List.any_eq_true]
      exact ⟨r, hr, by simp [h1, h2]⟩
  · intro hnone
    rw [if_neg ?hc]
    case hc =>
      rw [List.any_eq_true]
      rintro ⟨r, hr, hb⟩
      simp only [Bool.and_eq_true, beq_iff_eq] at hb
      exact hnone r hr hb

/-- C4 witness: with a `rejected` row for the pair the duplicate check fires;
with no row a fresh `pending` row with the current timestamp is inserted. -/
theorem register_duplicate_or_create_witness :
    tournament_register 0 exC4WDbDup exC4Team "point-a" = .error .DuplicateRegistration ∧
    tournament_register 0 exC4WDbNew exC4Team "point-a" = .ok { exC4WDbNew with
      registrations := exC4WDbNew.registrations ++
        [{ rid := nextRegistrationId exC4WDbNew.registrations
           tournament_id := exC4G.tid
           team_id := exC4Team.tid
           registration_date := 0
           status := "pending" }] } :=
  ⟨(@register_duplicate_or_create 0 exC4WDbDup exC4Team "point-a" exC4G
      (by decide) (by decide) (by decide)).1 (by decide),
   (@register_duplicate_or_create 0 exC4WDbNew exC4Team "point-a" exC4G
      (by decide) (by decide) (by decide)).2 (by decide)⟩

/-- C10 (confirmed): for an id with no row, both `ApproveRegistration` and
`RejectRegistration` fail with `NotFound`; for an existing row they succeed
unconditionally — whatever its prior status, with no eligibility or conflict
re-check — setting the status to `approved` resp. `rejected` and leaving every
other row and table untouched. -/
theorem approve_reject_unconditional (db : DB) (regId : Nat) :
    ((∀ r ∈ db.registrations, r.rid ≠ regId) →
      approve_registration db regId = .error .NotFound ∧
      reject_registration db regId = .error .NotFound) ∧
    (∀ r ∈ db.registrations, r.rid = regId →
      ∃ dbA dbR,
        approve_registration db regId = .ok dbA ∧
        reject_registration db regId = .ok dbR ∧
        { r with status := "approved" } ∈ dbA.registrations ∧
        { r with status := "rejected" } ∈ dbR.registrations ∧
        dbA.teams = db.teams ∧ dbA.tournaments = db.tournaments ∧
        dbR.teams = db.teams ∧ dbR.tournaments = db.tournaments ∧
        (∀ s ∈ db.registrations, s.rid ≠ regId →
          s ∈ dbA.registrations ∧ s ∈ dbR.registrations)) := by
  constructor
  · intro hnone
    have hany : (db.registrations.any fun r => r.rid == regId) = false := by
      cases hcase : db.registrations.any fun r => r.rid == regId with
      | false => rfl
      | true =>
        rw [List.any_eq_true] at hcase
        obtain ⟨r, hr, hb⟩ := hcase
        exact absurd (by simpa using hb) (hnone r hr)
    unfold approve_registration reject_registration
    rw [hany]
    exact ⟨rfl, rfl⟩
  · intro r hr hEq
    have hany : (db.registrations.any fun s => s.rid == regId) = true := by
      rw [List.any_eq_true]
      exact ⟨r, hr, by simp [hEq]⟩
    refine ⟨{ db with registrations := db.registrations.map (fun s =>
        if s.rid == regId then { s with status := "approved" } else s) },
      { db with registrations := db.registrations.map (fun s =>
        if s.rid == regId then { s with status := "rejected" } else s) },
      ?_, ?_, ?_, ?_, rfl, rfl, rfl, rfl, ?_⟩
    · unfold approve_registration
      rw [if_pos hany]
    · unfold reject_registration
      rw [if_pos hany]
    · simpa [hEq] using List.mem_map_of_mem
        (fun s => if s.rid == regId then { s with status := "approved" } else s) hr
    · simpa [hEq] using List.mem_map_of_mem
        (fun s => if s.rid == regId then { s with status := "rejected" } else s) hr
    · intro s hs hne
      constructor
      · simpa [hne] using List.mem_map_of_mem
          (fun s => if s.rid == regId then { s with status := "approved" } else s) hs
      · simpa [hne] using List.mem_map_of_mem
          (fun s => if s.rid == regId then { s with status := "rejected" } else s) hs

/-- C10 witness: approving an already-`rejected` registration overwrites its
status to `approved` with no re-check. -/
theorem approve_reject_unconditional_witness :
    ∃ dbA dbR,
      approve_registration exC10Db 1 = .ok dbA ∧
      reject_registration exC10Db 1 = .ok dbR ∧
      (⟨1, 1, 1, 0, "approved"⟩ : Registration) ∈ dbA.registrations ∧
      (⟨1, 1, 1, 0, "rejected"⟩ : Registration) ∈ dbR.registrations ∧
      dbA.teams = exC10Db.teams ∧ dbA.tournaments = exC10Db.tournaments ∧
      dbR.teams = exC10Db.teams ∧ dbR.tournaments = exC10Db.tournaments ∧
      (∀ s ∈ exC10Db.registrations, s.rid ≠ 1 →
        s ∈ dbA.registrations ∧ s ∈ dbR.registrations) :=
  (approve_reject_unconditional exC10Db 1).2 ⟨1, 1, 1, 0, "rejected"⟩ (by decide) rfl

/-- C8 (confirmed): archiving is idempotent — a second `ArchiveTournament` on
the state produced by the first returns exactly the same state; that state has
the tournament's `archived` flag set, every previously-`approved` registration
under it moved to `archived`, and every other registration (pending, rejected,
or under another tournament) untouched. -/
theorem archive_idempotent {db : DB} {tournamentId : Nat} {db' : DB}
    (h : tournament_archive db tournamentId = .ok db') :
    tournament_archive db' tournamentId = .ok db' ∧
    (∀ t ∈ db.tournaments, t.tid = tournamentId →
      { t with archived := true } ∈ db'.tournaments) ∧
    (∀ r ∈ db.registrations, r.tournament_id = tournamentId → r.status = "approved" →
      { r with status := "archived" } ∈ db'.registrations) ∧
    (∀ r ∈ db.registrations, r.tournament_id ≠ tournamentId ∨ r.status ≠ "approved" →
      r ∈ db'.registrations) := by
  obtain ⟨rfl, hany⟩ := tournament_archive_ok h
  refine ⟨?_, ?_, ?_, ?_⟩
  · unfold tournament_archive
    dsimp only
    rw [if_pos ?hc]
    case hc =>
      rw [List.any_map]
      have : ((fun t => t.tid == tournamentId) ∘
          (fun t => if t.tid == tournamentId then { t with archived := true } else t)) =
          fun t : Tournament => t.tid == tournamentId := by
        funext t
        by_cases hc : t.tid = tournamentId <;> simp [Function.comp, hc]
      rw [this]
      exact hany
    rw [List.map_map, List.map_map]
    have hff : ((fun r => if r.tournament_id == tournamentId && r.status == "approved" then
        { r with status := "archived" } else r) ∘
        (fun r => if r.tournament_id == tournamentId && r.status == "approved" then
        { r with status := "archived" } else r)) =
        fun r : Registration =>
          if r.tournament_id == tournamentId && r.status == "approved" then
            { r with status := "archived" } else r := by
      funext r
      by_cases h1 : r.tournament_id = tournamentId
      · by_cases h2 : r.status = "approved"
        · simp [Function.comp, h1, h2]
        · simp [Function.comp, h1, h2]
      · simp [Function.comp, h1]
    have hgg : ((fun t => if t.tid == tournamentId then { t with archived := true } else t) ∘
        (fun t => if t.tid == tournamentId then { t with archived := true } else t)) =
        fun t : Tournament =>
          if t.tid == tournamentId then { t with archived := true } else t := by
      funext t
      by_cases hc : t.tid = tournamentId <;> simp [Function.comp, hc]
    rw [hff, hgg]
  · intro t ht hEq
    dsimp only
    simpa [hEq] using List.mem_map_of_mem
      (fun t => if t.tid == tournamentId then { t with archived := true } else t) ht
  · intro r hr h1 h2
    dsimp only
    simpa [h1, h2] using List.mem_map_of_mem
      (fun r => if r.tournament_id == tournamentId && r.status == "approved" then
        { r with status := "archived" } else r) hr
  · intro r hr hor
    dsimp only
    rcases hor with h1 | h2
    · simpa [h1] using List.mem_map_of_mem
        (fun r => if r.tournament_id == tournamentId && r.status == "approved" then
          { r with status := "archived" } else r) hr
    · simpa [h2] using List.mem_map_of_mem
        (fun r => if r.tournament_id == tournamentId && r.status == "approved" then
          { r with status := "archived" } else r) hr

/-- C8 witness: archiving a tournament with approved, pending and rejected
rows, then archiving again, fixes the once-archived state. -/
theorem archive_idempotent_witness :
    tournament_archive exC8Db 1 = .ok exC8Db1 ∧
    tournament_archive exC8Db1 1 = .ok exC8Db1 :=
  ⟨by decide, (@archive_idempotent exC8Db 1 exC8Db1 (by decide)).1⟩

/-- C7 (confirmed): one run of the sweep archives-and-hides every past-dated
unarchived tournament and moves its `approved` registrations to `archived`,
while leaving every future-dated tournament unchanged. -/
theorem sweep_expired_spec (now : Int) (db : DB)
    (hnd : (db.tournaments.map (fun t => t.tid)).Nodup) :
    (∀ t ∈ db.tournaments, t.date < now → t.archived = false →
      { t with archived := true, hide := true } ∈
        (archive_expired_tournaments now db).tournaments) ∧
    (∀ t ∈ db.tournaments, now ≤ t.date →
      t ∈ (archive_expired_tournaments now db).tournaments) ∧
    (∀ r ∈ db.registrations, r.status = "approved" →
      (∃ t ∈ db.tournaments, t.tid = r.tournament_id ∧ t.date < now ∧ t.archived = false) →
      { r with status := "archived" } ∈ (archive_expired_tournaments now db).registrations) := by
  rw [archive_expired_eq]
  refine ⟨?_, ?_, ?_⟩
  · intro t ht h1 h2
    dsimp only
    have hmem : t.tid ∈ expiredIds now db := by
      unfold expiredIds
      exact List.mem_map_of_mem _ (List.mem_filter.mpr ⟨ht, by simp [isExpired, h1, h2]⟩)
    simpa [markExpiredIn, hmem] using
      List.mem_map_of_mem (markExpiredIn (expiredIds now db)) ht
  · intro t ht h1
    dsimp only
    have hnotmem : t.tid ∉ expiredIds now db := by
      unfold expiredIds
      intro hmem
      rw [List.mem_map] at hmem
      obtain ⟨u, hu, hEq⟩ := hmem
      rw [List.mem_filter] at hu
      have hut : u = t := List.inj_on_of_nodup_map hnd hu.1 ht hEq
      subst hut
      simp only [isExpired, Bool.and_eq_true, decide_eq_true_eq] at hu
      omega
    simpa [markExpiredIn, hnotmem] using
      List.mem_map_of_mem (markExpiredIn (expiredIds now db)) ht
  · intro r hr h1 h2
    dsimp only
    obtain ⟨t, ht, h3, h4, h5⟩ := h2
    have hmem : r.tournament_id ∈ expiredIds now db := by
      unfold expiredIds
      rw [← h3]
      exact List.mem_map_of_mem _ (List.mem_filter.mpr ⟨ht, by simp [isExpired, h4, h5]⟩)
    simpa [archiveApprovedIn, hmem, h1] using
      List.mem_map_of_mem (archiveApprovedIn (expiredIds now db)) hr

/-- C7 witness: the spec's scenario — a tournament dated yesterday with an
approved registration is archived and hidden, its registration becomes
`archived`, and a tournament dated tomorrow is untouched. -/
theorem sweep_expired_spec_witness :
    ({ exC7G1 with archived := true, hide := true } ∈
      (archive_expired_tournaments 0 exC7Db).tournaments) ∧
    (exC7G2 ∈ (archive_expired_tournaments 0 exC7Db).tournaments) ∧
    ({ exC7Reg with status := "archived" } ∈
      (archive_expired_tournaments 0 exC7Db).registrations) := by
  have H := sweep_expired_spec 0 exC7Db (by decide)
  exact ⟨H.1 exC7G1 (by decide) (by decide) (by decide),
         H.2.1 exC7G2 (by decide) (by decide),
         H.2.2 exC7Reg (by decide) (by decide) ⟨exC7G1, by decide, by decide, by decide,
           by decide⟩⟩

/-- After a clean sweep at time `now`, no tournament dated before `now` is
left unarchived. -/
theorem sweep_archives_all_expired (now : Int) (db : DB) :
    ∀ t ∈ (archive_expired_tournaments now db).tournaments,
      t.date < now → t.archived = true := by
  rw [archive_expired_eq]
  dsimp only
  intro t ht hdate
  rw [List.mem_map] at ht
  obtain ⟨u, hu, rfl⟩ := ht
  by_cases hc : u.tid ∈ expiredIds now db
  · simp [markExpiredIn, hc]
  · have hcond : ¬(((expiredIds now db).contains u.tid) = true) := by simpa using hc
    simp only [markExpiredIn] at hdate ⊢
    rw [if_neg hcond] at hdate ⊢
    by_contra harch
    have harch2 : u.archived = false := by
      cases hh : u.archived
      · rfl
      · exact absurd hh harch
    apply hc
    unfold expiredIds
    apply List.mem_map_of_mem
    exact List.mem_filter.mpr ⟨hu, by simp [isExpired, hdate, harch2]⟩

/-- C9 (confirmed): a scheduled sweep tick either commits the whole batch or
— when an exception is raised anywhere inside the transaction — leaves the
database exactly as it was with the error logged; no partially-archived state
is observable, the tick always returns (it never terminates the application),
and the next clean tick archives everything that is due. -/
theorem sweep_tick_atomic (now : Int) (db : DB) (faultAt : Option Nat) :
    (((sweep_tick now db faultAt).1 = db ∧ (sweep_tick now db faultAt).2 = true) ∨
     ((sweep_tick now db faultAt).1 = archive_expired_tournaments now db ∧
      (sweep_tick now db faultAt).2 = false)) ∧
    (∀ t ∈ (sweep_tick now ((sweep_tick now db faultAt).1) none).1.tournaments,
      t.date < now → t.archived = true) := by
  constructor
  · cases faultAt with
    | none => exact Or.inr ⟨rfl, rfl⟩
    | some k =>
      by_cases hk : k ≤ sweepStepCount now db + 1
      · exact Or.inl (by simp [sweep_tick, hk])
      · exact Or.inr (by simp [sweep_tick, hk])
  · intro t ht h1
    refine sweep_archives_all_expired now ((sweep_tick now db faultAt).1) t ?_ h1
    simpa [sweep_tick] using ht

/-- C9 witness: a fault at the very first loop iteration leaves the state
unchanged with the error logged. -/
theorem sweep_tick_atomic_witness :
    ((sweep_tick 0 exC9Db (some 0)).1 = exC9Db ∧ (sweep_tick 0 exC9Db (some 0)).2 = true) ∧
    ({ exC9G1 with archived := true, hide := true } ∈
        (sweep_tick 0 ((sweep_tick 0 exC9Db (some 0)).1) none).1.tournaments →
      ({ exC9G1 with archived := true, hide := true } : Tournament).archived = true) :=
  ⟨((sweep_tick_atomic 0 exC9Db (some 0)).1).resolve_right (by decide),
   fun hmem => (sweep_tick_atomic 0 exC9Db (some 0)).2 _ hmem (by decide)⟩

/-- C1 counterexample: a state reachable through public operations alone
violates the at-most-one-approved invariant, because `ApproveRegistration`
performs no conflict re-check.  From a state with one team and two open
tournaments and no registrations: register at both venues (both rows
`pending`), then approve both rows; the team now holds two `approved`
registrations on open tournaments. -/
theorem unique_approved_invariant_counterexample :
    tournament_register 0 exC1Db0 exC1Team "point-a" = .ok exC1Db1 ∧
    tournament_register 0 exC1Db1 exC1Team "point-b" = .ok exC1Db2 ∧
    approve_registration exC1Db2 1 = .ok exC1Db3 ∧
    approve_registration exC1Db3 2 = .ok exC1Db4 ∧
    isOpen 0 exC1G1 = true ∧ isOpen 0 exC1G2 = true ∧
    approvedOpenCount 0 exC1Db4 1 = 2 ∧
    ¬ UniqueApprovedInvariant 0 exC1Db4 := by
  refine ⟨by decide, by decide, by decide, by decide, by decide, by decide, by decide, ?_⟩
  intro hinv
  exact absurd (hinv 1) (by decide)

/-- C1 (corrected): the at-most-one-approved property is preserved by
registering (a success only ever adds a `pending` row), rejecting, archiving,
and sweeping — but not by approving a registration, which is the operation the
counterexample exploits. -/
theorem unique_approved_preserved_except_approval (now : Int) (db : DB)
    (hin : UniqueApprovedInvariant now db) :
    (∀ team loc db', tournament_register now db team loc = .ok db' →
      UniqueApprovedInvariant now db') ∧
    (∀ regId db', reject_registration db regId = .ok db' →
      UniqueApprovedInvariant now db') ∧
    (∀ tournamentId db', tournament_archive db tournamentId = .ok db' →
      UniqueApprovedInvariant now db') ∧
    UniqueApprovedInvariant now (archive_expired_tournaments now db) :=
  ⟨fun _ _ _ h => register_preserves_invariant hin h,
   fun _ _ h => reject_preserves_invariant hin h,
   fun _ _ h => archive_preserves_invariant hin h,
   sweep_preserves_invariant hin⟩

/-- C1 witness: registering from an invariant-satisfying state (here: one with
no registrations) keeps the invariant. -/
theorem unique_approved_preserved_witness :
    UniqueApprovedInvariant 0 exC1Db1 :=
  (unique_approved_preserved_except_approval 0 exC1Db0
    (fun _ => Nat.zero_le 1)).1 exC1Team "point-a" exC1Db1 (by decide)

/-- C6 (confirmed): over any scoped subset of the team table, the ranking
computation orders the scoped set by (points descending, wins descending),
assigns each team the 1-based position in that order as its rank — ties get
distinct sequential ranks, never shared — and persists every scoped team's new
rank into the team table while leaving unscoped teams untouched. -/
theorem home_compute_rankings_spec (db : DB) (p : Team → Bool)
    (hnd : (db.teams.map (fun tm => tm.tid)).Nodup) :
    (rankByPointsWins (db.teams.filter p)).Perm (db.teams.filter p) ∧
    (rankByPointsWins (db.teams.filter p)).Pairwise (fun a b => teamRankLE a b = true) ∧
    (∀ j (h2 : j < (assignRanks (rankByPointsWins (db.teams.filter p))).length),
      ∃ h : j < (rankByPointsWins (db.teams.filter p)).length,
        (assignRanks (rankByPointsWins (db.teams.filter p))).get ⟨j, h2⟩ =
          { (rankByPointsWins (db.teams.filter p)).get ⟨j, h⟩ with
            rank := some (Int.ofNat (1 + j)) }) ∧
    (∀ j (h : j < (rankByPointsWins (db.teams.filter p)).length),
      { (rankByPointsWins (db.teams.filter p)).get ⟨j, h⟩ with
        rank := some (Int.ofNat (1 + j)) } ∈
        (home_compute_rankings db (db.teams.filter p)).teams) ∧
    (∀ tm ∈ db.teams, p tm = false →
      tm ∈ (home_compute_rankings db (db.teams.filter p)).teams) := by
  have hperm := rankByPointsWins_perm (db.teams.filter p)
  have hsorted := rankByPointsWins_sorted (db.teams.filter p)
  have hnd_sel : ((db.teams.filter p).map (fun tm => tm.tid)).Nodup :=
    List.Nodup.sublist (List.Sublist.map _ (List.filter_sublist _)) hnd
  have hnd_sorted : ((rankByPointsWins (db.teams.filter p)).map (fun tm => tm.tid)).Nodup :=
    ((hperm.map (fun tm => tm.tid)).nodup_iff).mpr hnd_sel
  have hnd_ranked :
      ((assignRanks (rankByPointsWins (db.teams.filter p))).map (fun tm => tm.tid)).Nodup := by
    unfold assignRanks
    rw [assignRanksFrom_map_tid]
    exact hnd_sorted
  have hlen : (assignRanks (rankByPointsWins (db.teams.filter p))).length =
      (rankByPointsWins (db.teams.filter p)).length := assignRanksFrom_length 1 _
  refine ⟨hperm, hsorted, ?_, ?_, ?_⟩
  · intro j h2
    refine ⟨hlen ▸ h2, ?_⟩
    exact assignRanksFrom_get 1 _ j _ h2
  · intro j h
    have h2 : j < (assignRanks (rankByPointsWins (db.teams.filter p))).length := by
      rw [hlen]; exact h
    have hget : (assignRanks (rankByPointsWins (db.teams.filter p))).get ⟨j, h2⟩ =
        { (rankByPointsWins (db.teams.filter p)).get ⟨j, h⟩ with
          rank := some (Int.ofNat (1 + j)) } := assignRanksFrom_get 1 _ j h h2
    have hx_mem : { (rankByPointsWins (db.teams.filter p)).get ⟨j, h⟩ with
        rank := some (Int.ofNat (1 + j)) } ∈
        assignRanks (rankByPointsWins (db.teams.filter p)) := by
      rw [← hget]
      exact List.get_mem _ j h2
    have hteam_db : (rankByPointsWins (db.teams.filter p)).get ⟨j, h⟩ ∈ db.teams :=
      (List.mem_filter.mp (hperm.mem_iff.mp (List.get_mem _ j h))).1
    have hfind : (assignRanks (rankByPointsWins (db.teams.filter p))).find?
        (fun y => y.tid == ((rankByPointsWins (db.teams.filter p)).get ⟨j, h⟩).tid) =
        some { (rankByPointsWins (db.teams.filter p)).get ⟨j, h⟩ with
          rank := some (Int.ofNat (1 + j)) } :=
      find?_tid_unique hnd_ranked hx_mem
    unfold home_compute_rankings
    dsimp only
    refine List.mem_map.mpr ⟨_, hteam_db, ?_⟩
    rw [hfind]
    rfl
  · intro tm htm hp
    have hfind : (assignRanks (rankByPointsWins (db.teams.filter p))).find?
        (fun y => y.tid == tm.tid) = none := by
      rw [List.find?_eq_none]
      intro x hx hbeq
      have hxid : x.tid = tm.tid := by simpa using hbeq
      have h1 : x.tid ∈ (assignRanks (rankByPointsWins (db.teams.filter p))).map
          (fun tm => tm.tid) := List.mem_map_of_mem (fun tm => tm.tid) hx
      unfold assignRanks at h1
      rw [assignRanksFrom_map_tid] at h1
      have h2 : x.tid ∈ (db.teams.filter p).map (fun tm => tm.tid) :=
        (hperm.map (fun tm => tm.tid)).mem_iff.mp h1
      rw [List.mem_map] at h2
      obtain ⟨y, hy, hyid⟩ := h2
      have hy_db : y ∈ db.teams := (List.mem_filter.mp hy).1
      have hy_eq : y = tm := List.inj_on_of_nodup_map hnd hy_db htm (by rw [hyid, hxid])
      have hptm : p tm = true := hy_eq ▸ (List.mem_filter.mp hy).2
      rw [hp] at hptm
      cases hptm
    unfold home_compute_rankings
    dsimp only
    refine List.mem_map.mpr ⟨tm, htm, ?_⟩
    rw [hfind]
    rfl

/-- C6 witness: with two VALORANT teams tied on points, the one with more wins
gets rank 1 and is persisted; the team outside the scope keeps its row. -/
theorem home_compute_rankings_spec_witness :
    (rankByPointsWins (exC6Db.teams.filter exC6Scope)).Perm
      (exC6Db.teams.filter exC6Scope) ∧
    ({ exC6TeamB with rank := some 1 } ∈
      (home_compute_rankings exC6Db (exC6Db.teams.filter exC6Scope)).teams) ∧
    (exC6TeamC ∈ (home_compute_rankings exC6Db (exC6Db.teams.filter exC6Scope)).teams) := by
  have H := home_compute_rankings_spec exC6Db exC6Scope (by decide)
  refine ⟨H.1, ?_, H.2.2.2.2 exC6TeamC (by decide) (by decide)⟩
  exact H.2.2.2.1 0 (by decide)

end ESportsHub
